import Mathlib

/-!
Shallow embedding of the prediction-distribution engine (src/main.py) and its
data-access layer (src/database.py).  SQLite rows become Lean structures, the
database becomes an explicit record of row lists threaded through every
operation, timestamps become integer seconds, and the Telegram transport is
modelled by per-recipient outcome oracles mirroring the exception taxonomy of
the source.
-/

namespace AB5

/-- Timestamps are integer seconds; SQLite datetime comparisons on ISO strings
are chronological, so they become integer comparisons. -/
abbrev Time := Int

def secondsPerDay : Int := 86400

/-- Calendar-day truncation used by SQLite date(): the epoch day of a timestamp. -/
def dayOf (t : Time) : Int := t / secondsPerDay

/-- Row of the users table (database.py create_tables). -/
structure UserRow where
  user_id : Int
  username : String
  is_admin : Bool
  end_date : Option Time
  is_paused : Bool
  pause_until : Option Time
deriving DecidableEq

/-- Row of the channels table (created_at is never read by the engine). -/
structure ChannelRow where
  channel_id : Int
  name : String
  is_active : Bool
deriving DecidableEq

/-- Row of the bookmakers table. -/
structure BookmakerRow where
  id : Int
  name : String
  is_active : Bool
deriving DecidableEq

/-- Row of the user_bookmakers association table. -/
structure UserBookmakerRow where
  user_id : Int
  bookmaker_id : Int
deriving DecidableEq

/-- Row of the channel_bookmakers association table. -/
structure ChannelBookmakerRow where
  channel_id : Int
  bookmaker_id : Int
  is_selected : Bool
deriving DecidableEq

/-- Row of the sent_predictions ledger. -/
structure SentPredictionRow where
  prediction_key : String
  sent_at : Time
deriving DecidableEq

/-- Row of the user_predictions ledger. -/
structure UserPredictionRow where
  user_id : Int
  prediction_key : String
  sent_at : Time
deriving DecidableEq

/-- Row of the signal_limits table. -/
structure SignalLimitsRow where
  max_signals_per_day : Nat
  pause_after_signals : Nat
  pause_duration_hours : Nat
deriving DecidableEq

/-- The whole SQLite database, rows kept in insertion order. -/
structure DB where
  users : List UserRow
  channels : List ChannelRow
  bookmakers : List BookmakerRow
  user_bookmakers : List UserBookmakerRow
  channel_bookmakers : List ChannelBookmakerRow
  sent_predictions : List SentPredictionRow
  user_predictions : List UserPredictionRow
  signal_limits : List SignalLimitsRow
deriving DecidableEq

/-- database.get_user: SELECT * FROM users WHERE user_id = ? (user_id is the
primary key; find? returns the unique match). -/
def get_user (uid : Int) (db : DB) : Option UserRow :=
  db.users.find? (fun u => u.user_id == uid)

/-- database.add_user: INSERT OR IGNORE — a row whose primary key already
exists is left completely untouched. -/
def add_user (uid : Int) (username : String) (adm : Bool) (db : DB) : DB :=
  if db.users.any (fun u => u.user_id == uid) then db
  else { db with users := db.users ++
      [{ user_id := uid, username := username, is_admin := adm,
         end_date := none, is_paused := false, pause_until := none }] }

/-- database.get_all_active_users: users WHERE end_date > now AND is_paused =
FALSE (a NULL end_date fails the comparison, as in SQL). -/
def get_all_active_users (now : Time) (db : DB) : List UserRow :=
  db.users.filter (fun u =>
    (match u.end_date with | some d => now < d | none => false) && !u.is_paused)

/-- database.is_prediction_sent: COUNT(*) > 0 for the key, with no condition
on sent_at. -/
def is_prediction_sent (key : String) (db : DB) : Bool :=
  db.sent_predictions.any (fun r => r.prediction_key == key)

/-- database.add_sent_prediction: INSERT OR IGNORE on the prediction_key
primary key, sent_at defaulting to the current timestamp. -/
def add_sent_prediction (key : String) (now : Time) (db : DB) : DB :=
  if db.sent_predictions.any (fun r => r.prediction_key == key) then db
  else { db with sent_predictions := db.sent_predictions ++ [⟨key, now⟩] }

/-- database.delete_old_predictions: DELETE rows with sent_at < now - 7 days. -/
def delete_old_predictions (now : Time) (db : DB) : DB :=
  { db with sent_predictions :=
      db.sent_predictions.filter (fun r => !(r.sent_at < now - 7 * secondsPerDay)) }

/-- database.add_user_prediction: plain INSERT with the current timestamp. -/
def add_user_prediction (uid : Int) (key : String) (now : Time) (db : DB) : DB :=
  { db with user_predictions := db.user_predictions ++ [⟨uid, key, now⟩] }

/-- database.get_user_daily_signal_count: COUNT of the user's rows whose
sent_at falls on the current calendar day. -/
def get_user_daily_signal_count (uid : Int) (now : Time) (db : DB) : Nat :=
  (db.user_predictions.filter
    (fun r => r.user_id == uid && dayOf r.sent_at == dayOf now)).length

/-- database.set_user_pause: is_paused := TRUE, pause_until := now + hours. -/
def set_user_pause (uid : Int) (hours : Nat) (now : Time) (db : DB) : DB :=
  { db with users := db.users.map (fun u =>
      if u.user_id == uid then
        { u with is_paused := true, pause_until := some (now + (hours : Int) * 3600) }
      else u) }

/-- database.unpause_subscription: is_paused := FALSE. -/
def unpause_subscription (uid : Int) (db : DB) : DB :=
  { db with users := db.users.map (fun u =>
      if u.user_id == uid then { u with is_paused := false } else u) }

/-- database.is_user_paused: reads the user's pause fields; a pause whose
pause_until lies in the past is cleared write-through and reported false.
Returns the boolean together with the possibly updated database. -/
def is_user_paused (uid : Int) (now : Time) (db : DB) : Bool × DB :=
  match get_user uid db with
  | none => (false, db)
  | some u =>
    if !u.is_paused then (false, db)
    else
      match u.pause_until with
      | some t => if t < now then (false, unpause_subscription uid db) else (true, db)
      | none => (true, db)

/-- database.get_user_bookmakers: bookmakers joined through user_bookmakers,
restricted to active bookmakers. -/
def get_user_bookmakers (uid : Int) (db : DB) : List BookmakerRow :=
  db.bookmakers.filter (fun b =>
    b.is_active && db.user_bookmakers.any
      (fun r => r.user_id == uid && r.bookmaker_id == b.id))

/-- database.get_channel_bookmakers: active bookmakers joined through
channel_bookmakers for the channel, each carrying its is_selected flag
((channel_id, bookmaker_id) is the primary key, so find? is the join).
The source orders by name; ordering is irrelevant to every property below. -/
def get_channel_bookmakers (cid : Int) (db : DB) : List (BookmakerRow × Bool) :=
  (db.bookmakers.filter (fun b => b.is_active)).filterMap (fun b =>
    match db.channel_bookmakers.find?
        (fun r => r.channel_id == cid && r.bookmaker_id == b.id) with
    | some r => some (b, r.is_selected)
    | none => none)

/-- database.update_channel with its two optional parameters. -/
def update_channel (cid : Int) (active : Option Bool) (nm : Option String)
    (db : DB) : DB :=
  { db with channels := db.channels.map (fun c =>
      if c.channel_id == cid then
        { c with is_active := active.getD c.is_active, name := nm.getD c.name }
      else c) }

/-- database.get_signal_limits: the latest row (ORDER BY id DESC LIMIT 1 over
autoincrement ids = last inserted), defaulting to 10/5/24. -/
def get_signal_limits (db : DB) : SignalLimitsRow :=
  db.signal_limits.getLastD
    { max_signals_per_day := 10, pause_after_signals := 5, pause_duration_hours := 24 }

/-- One scraped prediction record (main.py: the dict produced per pass). -/
structure Prediction where
  bookmaker : String
  sport : String
  date : String
  tournament : String
  teams : String
  prediction : String
  odd : String
deriving DecidableEq

/-- Whitespace stripped by Python str.strip() on the ASCII range. -/
def isPyStripSpace (c : Char) : Bool :=
  c == ' ' || c == '\t' || c == '\n' || c == '\r' || c == '\x0b' || c == '\x0c'

/-- Python str.strip(): drop leading and trailing whitespace. -/
def pyStrip (s : String) : String :=
  String.mk (((s.data.dropWhile isPyStripSpace).reverse.dropWhile isPyStripSpace).reverse)

/-- main.py get_match_key: the anchored regex (\d\d/\d\d) succeeds on the
stripped date exactly when its first five characters are digit digit slash
digit digit. -/
def ddSlashDd (cs : List Char) : Bool :=
  match cs with
  | a :: b :: s :: c :: d :: _ =>
      a.isDigit && b.isDigit && s == '/' && c.isDigit && d.isDigit
  | _ => false

/-- main.py get_match_key: fingerprint "sport|date_short|teams" over the
stripped fields, where date_short is the dd/dd prefix of the stripped date
when the anchored regex matches and the whole stripped date otherwise.
The stripped bookmaker is computed and discarded, exactly as in the source. -/
def get_match_key (p : Prediction) : String :=
  let sport := pyStrip p.sport
  let date := pyStrip p.date
  let teams := pyStrip p.teams
  let date_short := if ddSlashDd date.data then String.mk (date.data.take 5) else date
  sport ++ "|" ++ date_short ++ "|" ++ teams

/-- main.py _filter_and_clean_prediction: accepts every prediction unchanged
(the filter is explicitly bypassed in the source). -/
def filter_and_clean_prediction (p : Prediction) : Option Prediction :=
  some p

/-- Outcome oracle for one channel delivery attempt, mirroring the branch
structure of the channel loop: the permission probe can report not-admin,
cannot-post, chat-not-found or bot-kicked; the send itself can succeed, raise
ChatWriteForbidden, raise RetryAfter (after which exactly one retry is made,
succeeding or not), or raise some other exception. -/
inductive ChanSend where
  | notAdmin
  | cannotPost
  | chatNotFound
  | botKicked
  | ok
  | writeForbidden
  | retryAfter (seconds : Nat) (retrySucceeds : Bool)
  | otherError
deriving DecidableEq

/-- Outcome oracle for one user delivery attempt.  The user loop has handlers
only for BotBlocked, UserDeactivated and the generic Exception; a RetryAfter
raised here is caught by the generic handler like any other error. -/
inductive UserSend where
  | ok
  | botBlocked
  | userDeactivated
  | retryAfter (seconds : Nat) (retryWouldSucceed : Bool)
  | otherError
deriving DecidableEq

/-- An outbound Telegram recipient. -/
inductive Recipient where
  | channel (id : Int)
  | user (id : Int)
deriving DecidableEq

/-- One outbound message: who received it and the fingerprint of the
prediction it rendered. -/
structure Outbound where
  recipient : Recipient
  key : String
deriving DecidableEq

/-- The channel bookmaker filter of the channel loop: the names of the
selected rows among the channel's active bookmakers; a non-empty list that
does not contain the prediction's bookmaker causes a skip. -/
def channel_allowed_names (cid : Int) (db : DB) : List String :=
  ((get_channel_bookmakers cid db).filter (fun bs => bs.2)).map (fun bs => bs.1.name)

/-- Channel skip condition: `channel_bk_names and bookmaker_name not in
channel_bk_names`. -/
def channel_pref_blocks (cid : Int) (bk : String) (db : DB) : Bool :=
  let names := channel_allowed_names cid db
  !names.isEmpty && !names.contains bk

/-- User skip condition: `user_bookmakers` non-empty and the bookmaker name
absent from it. -/
def user_pref_blocks (uid : Int) (bk : String) (db : DB) : Bool :=
  let prefs := get_user_bookmakers uid db
  !prefs.isEmpty && !(prefs.map (fun b => b.name)).contains bk

/-- Accumulator of the channel loop: database, emitted messages, the three
counters, and per-recipient counts of transport send calls. -/
structure ChanAcc where
  db : DB
  messages : List Outbound
  sent : Nat
  skipped : Nat
  errors : Nat
  attempts : List (Recipient × Nat)
deriving DecidableEq

/-- One iteration of the channel loop of send_prediction_to_user_and_channel:
inactive channels and bookmaker-filtered channels are skipped; chat-not-found,
bot-kicked and write-forbidden deactivate the channel; RetryAfter sleeps and
retries exactly once; every failure only increments the error counter. -/
def process_channel (bk : String) (key : String) (oracle : Int → ChanSend)
    (acc : ChanAcc) (c : ChannelRow) : ChanAcc :=
  if !c.is_active then { acc with skipped := acc.skipped + 1 }
  else if channel_pref_blocks c.channel_id bk acc.db then
    { acc with skipped := acc.skipped + 1 }
  else
    match oracle c.channel_id with
    | ChanSend.notAdmin =>
        { acc with errors := acc.errors + 1,
                   attempts := acc.attempts ++ [(Recipient.channel c.channel_id, 0)] }
    | ChanSend.cannotPost =>
        { acc with errors := acc.errors + 1,
                   attempts := acc.attempts ++ [(Recipient.channel c.channel_id, 0)] }
    | ChanSend.chatNotFound =>
        { acc with db := update_channel c.channel_id (some false) none acc.db,
                   errors := acc.errors + 1,
                   attempts := acc.attempts ++ [(Recipient.channel c.channel_id, 0)] }
    | ChanSend.botKicked =>
        { acc with db := update_channel c.channel_id (some false) none acc.db,
                   errors := acc.errors + 1,
                   attempts := acc.attempts ++ [(Recipient.channel c.channel_id, 0)] }
    | ChanSend.ok =>
        { acc with messages := acc.messages ++ [⟨Recipient.channel c.channel_id, key⟩],
                   sent := acc.sent + 1,
                   attempts := acc.attempts ++ [(Recipient.channel c.channel_id, 1)] }
    | ChanSend.writeForbidden =>
        { acc with db := update_channel c.channel_id (some false) none acc.db,
                   errors := acc.errors + 1,
                   attempts := acc.attempts ++ [(Recipient.channel c.channel_id, 1)] }
    | ChanSend.retryAfter _ retryOk =>
        if retryOk then
          { acc with messages := acc.messages ++ [⟨Recipient.channel c.channel_id, key⟩],
                     sent := acc.sent + 1,
                     attempts := acc.attempts ++ [(Recipient.channel c.channel_id, 2)] }
        else
          { acc with errors := acc.errors + 1,
                     attempts := acc.attempts ++ [(Recipient.channel c.channel_id, 2)] }
    | ChanSend.otherError =>
        { acc with errors := acc.errors + 1,
                   attempts := acc.attempts ++ [(Recipient.channel c.channel_id, 1)] }

/-- Accumulator of the user loop. -/
structure UserAcc where
  db : DB
  messages : List Outbound
  sent : Nat
  skipped : Nat
  errors : Nat
  attempts : List (Recipient × Nat)
deriving DecidableEq

/-- One iteration of the user loop of send_prediction_to_user_and_channel:
skip when paused (lazily clearing expired pauses), at the daily limit, or
filtered by bookmaker; on a successful send record the user-prediction row
and, when the new daily count reaches pause_after_signals, pause the user;
every delivery exception only increments the error counter — there is no
RetryAfter handler here, so a rate limit falls to the generic handler. -/
def process_user (bk : String) (key : String) (now : Time)
    (limits : SignalLimitsRow) (oracle : Int → UserSend)
    (acc : UserAcc) (u : UserRow) : UserAcc :=
  let paused := is_user_paused u.user_id now acc.db
  let db0 := paused.2
  if paused.1 then { acc with db := db0, skipped := acc.skipped + 1 }
  else
    let daily := get_user_daily_signal_count u.user_id now db0
    if limits.max_signals_per_day ≤ daily then
      { acc with db := db0, skipped := acc.skipped + 1 }
    else if user_pref_blocks u.user_id bk db0 then
      { acc with db := db0, skipped := acc.skipped + 1 }
    else
      match oracle u.user_id with
      | UserSend.ok =>
          let db1 := add_user_prediction u.user_id key now db0
          let db2 :=
            if limits.pause_after_signals ≤ daily + 1 then
              set_user_pause u.user_id limits.pause_duration_hours now db1
            else db1
          { acc with db := db2,
                     messages := acc.messages ++ [⟨Recipient.user u.user_id, key⟩],
                     sent := acc.sent + 1,
                     attempts := acc.attempts ++ [(Recipient.user u.user_id, 1)] }
      | UserSend.botBlocked =>
          { acc with db := db0, errors := acc.errors + 1,
                     attempts := acc.attempts ++ [(Recipient.user u.user_id, 1)] }
      | UserSend.userDeactivated =>
          { acc with db := db0, errors := acc.errors + 1,
                     attempts := acc.attempts ++ [(Recipient.user u.user_id, 1)] }
      | UserSend.retryAfter _ _ =>
          { acc with db := db0, errors := acc.errors + 1,
                     attempts := acc.attempts ++ [(Recipient.user u.user_id, 1)] }
      | UserSend.otherError =>
          { acc with db := db0, errors := acc.errors + 1,
                     attempts := acc.attempts ++ [(Recipient.user u.user_id, 1)] }

/-- Result of one fan-out of a single prediction. -/
structure FanoutResult where
  db : DB
  messages : List Outbound
  channel_sent : Nat
  channel_skipped : Nat
  channel_errors : Nat
  user_sent : Nat
  user_skipped : Nat
  user_errors : Nat
  attempts : List (Recipient × Nat)
deriving DecidableEq

/-- main.py send_prediction_to_user_and_channel.  An empty (stripped)
bookmaker is a pure no-op.  Channels are fanned out first over the snapshot
list (the source orders it by name; ordering is property-irrelevant), then —
unless the active-user snapshot is empty, in which case the function returns
early — users are fanned out, and finally the fingerprint is recorded in the
sent ledger when at least one channel or user delivery succeeded. -/
def send_prediction_to_user_and_channel (p : Prediction) (now : Time)
    (chanOracle : Int → ChanSend) (userOracle : Int → UserSend)
    (db : DB) : FanoutResult :=
  let bookmaker_name := pyStrip p.bookmaker
  let prediction_key := get_match_key p
  if bookmaker_name == "" then
    { db := db, messages := [], channel_sent := 0, channel_skipped := 0,
      channel_errors := 0, user_sent := 0, user_skipped := 0, user_errors := 0,
      attempts := [] }
  else
    let chanAcc := db.channels.foldl
      (process_channel bookmaker_name prediction_key chanOracle)
      { db := db, messages := [], sent := 0, skipped := 0, errors := 0, attempts := [] }
    let users := get_all_active_users now chanAcc.db
    if users.isEmpty then
      { db := chanAcc.db, messages := chanAcc.messages,
        channel_sent := chanAcc.sent, channel_skipped := chanAcc.skipped,
        channel_errors := chanAcc.errors, user_sent := 0, user_skipped := 0,
        user_errors := 0, attempts := chanAcc.attempts }
    else
      let limits := get_signal_limits chanAcc.db
      let userAcc := users.foldl
        (process_user bookmaker_name prediction_key now limits userOracle)
        { db := chanAcc.db, messages := [], sent := 0, skipped := 0, errors := 0,
          attempts := [] }
      let dbFinal :=
        if 0 < chanAcc.sent || 0 < userAcc.sent then
          add_sent_prediction prediction_key now userAcc.db
        else userAcc.db
      { db := dbFinal, messages := chanAcc.messages ++ userAcc.messages,
        channel_sent := chanAcc.sent, channel_skipped := chanAcc.skipped,
        channel_errors := chanAcc.errors, user_sent := userAcc.sent,
        user_skipped := userAcc.skipped, user_errors := userAcc.errors,
        attempts := chanAcc.attempts ++ userAcc.attempts }

/-- The body of the sending loop of send_predictions_to_subscribed_users:
fan the prediction out, then — unconditionally, on the very next line of the
source — record its fingerprint in the sent ledger. -/
def distribute_step (now : Time) (chanOracle : Int → ChanSend)
    (userOracle : Int → UserSend) (st : DB × List Outbound)
    (p : Prediction) : DB × List Outbound :=
  let r := send_prediction_to_user_and_channel p now chanOracle userOracle st.1
  (add_sent_prediction (get_match_key p) now r.db, st.2 ++ r.messages)

/-- The distribution pass of main.py send_predictions_to_subscribed_users:
filter the batch (the bypassed content filter, then the sent-ledger check,
both against the pass's initial database), then run distribute_step on every
queued prediction. -/
def send_predictions_to_subscribed_users (preds : List Prediction) (now : Time)
    (chanOracle : Int → ChanSend) (userOracle : Int → UserSend)
    (db : DB) : DB × List Outbound :=
  let queued := (preds.filterMap filter_and_clean_prediction).filter
    (fun p => !is_prediction_sent (get_match_key p) db)
  queued.foldl (distribute_step now chanOracle userOracle) (db, [])

/-- One scheduled pass inside a sequence of passes: run the distribution over
its batch at its clock, accumulating emitted messages. -/
def pass_step (chanOracle : Int → ChanSend) (userOracle : Int → UserSend)
    (st : DB × List Outbound) (b : Time × List Prediction) : DB × List Outbound :=
  let r := send_predictions_to_subscribed_users b.2 b.1 chanOracle userOracle st.1
  (r.1, st.2 ++ r.2)

/-- A sequence of distribution passes, each with its own batch and clock. -/
def run_passes (batches : List (Time × List Prediction))
    (chanOracle : Int → ChanSend) (userOracle : Int → UserSend)
    (db : DB) : DB × List Outbound :=
  batches.foldl (pass_step chanOracle userOracle) (db, [])

/-- True when no message of the list is addressed to the recipient. -/
def msgs_avoid (r : Recipient) (ms : List Outbound) : Bool :=
  ms.all (fun m => !decide (m.recipient = r))

/-- True when no message of the list carries the fingerprint. -/
def keys_avoid (F : String) (ms : List Outbound) : Bool :=
  ms.all (fun m => !decide (m.key = F))

/-! ## Helper lemmas -/

lemma msgs_avoid_iff (r : Recipient) (ms : List Outbound) :
    msgs_avoid r ms = true ↔ ∀ m ∈ ms, m.recipient ≠ r := by
  simp [msgs_avoid, List.all_eq_true]

lemma keys_avoid_iff (F : String) (ms : List Outbound) :
    keys_avoid F ms = true ↔ ∀ m ∈ ms, m.key ≠ F := by
  simp [keys_avoid, List.all_eq_true]

lemma find?_eq_some_of_unique {α : Type} (p : α → Bool) (l : List α) (r : α)
    (hr : r ∈ l) (hp : p r = true) (huniq : ∀ s ∈ l, p s = true → s = r) :
    l.find? p = some r := by
  induction l with
  | nil => cases hr
  | cons x t ih =>
    by_cases hx : p x = true
    · have hxr : x = r := huniq x (List.mem_cons_self x t) hx
      rw [List.find?_cons_of_pos _ hx, hxr]
    · have hr' : r ∈ t := by
        rcases List.mem_cons.mp hr with h | h
        · exact absurd (h ▸ hp) hx
        · exact h
      rw [List.find?_cons_of_neg _ hx]
      exact ih hr' (fun s hs hps => huniq s (List.mem_cons_of_mem x hs) hps)

lemma find?_userId_map_ite (uid : Int) (f : UserRow → UserRow)
    (hf : ∀ v, (f v).user_id = v.user_id) (l : List UserRow) :
    (l.map (fun v => if v.user_id == uid then f v else v)).find?
        (fun u => u.user_id == uid)
      = (l.find? (fun u => u.user_id == uid)).map f := by
  induction l with
  | nil => rfl
  | cons v t ih =>
    by_cases hv : v.user_id = uid
    · have hb : (v.user_id == uid) = true := by simp [hv]
      simp only [List.map_cons, if_pos hb]
      have hl : ((f v) :: t.map (fun v => if v.user_id == uid then f v else v)).find?
          (fun u => u.user_id == uid) = some (f v) :=
        List.find?_cons_of_pos _ (by simp [hf, hv])
      have hr : (v :: t).find? (fun u => u.user_id == uid) = some v :=
        List.find?_cons_of_pos _ hb
      rw [hl, hr]
      rfl
    · have hb : ¬(v.user_id == uid) = true := by simp [hv]
      simp only [List.map_cons, if_neg hb]
      have hl : (v :: t.map (fun v => if v.user_id == uid then f v else v)).find?
          (fun u => u.user_id == uid)
          = (t.map (fun v => if v.user_id == uid then f v else v)).find?
              (fun u => u.user_id == uid) :=
        List.find?_cons_of_neg _ (by simp [hv])
      have hr : (v :: t).find? (fun u => u.user_id == uid)
          = t.find? (fun u => u.user_id == uid) :=
        List.find?_cons_of_neg _ (by simp [hv])
      rw [hl, hr]
      exact ih

lemma get_user_unpause (uid : Int) (db : DB) :
    get_user uid (unpause_subscription uid db)
      = (get_user uid db).map (fun u => { u with is_paused := false }) := by
  unfold get_user unpause_subscription
  exact find?_userId_map_ite uid (fun u => { u with is_paused := false })
    (fun v => rfl) db.users

lemma get_user_set_user_pause (uid : Int) (hours : Nat) (now : Time) (db : DB) :
    get_user uid (set_user_pause uid hours now db)
      = (get_user uid db).map (fun u =>
          { u with is_paused := true,
                   pause_until := some (now + (hours : Int) * 3600) }) := by
  unfold get_user set_user_pause
  exact find?_userId_map_ite uid
    (fun u => { u with is_paused := true,
                       pause_until := some (now + (hours : Int) * 3600) })
    (fun v => rfl) db.users

lemma get_user_add_user_prediction (uid uid2 : Int) (key : String) (now : Time)
    (db : DB) :
    get_user uid (add_user_prediction uid2 key now db) = get_user uid db := rfl

/-- The second component of is_user_paused is the database, either untouched
or with the user's pause flag cleared. -/
lemma is_user_paused_snd (uid : Int) (now : Time) (db : DB) :
    (is_user_paused uid now db).2 = db ∨
    (is_user_paused uid now db).2 = unpause_subscription uid db := by
  unfold is_user_paused
  cases hu : get_user uid db with
  | none => exact Or.inl rfl
  | some u =>
    by_cases hp : u.is_paused = true
    · simp only [hp]
      cases ht : u.pause_until with
      | none => exact Or.inl rfl
      | some t =>
        by_cases hlt : t < now
        · simp only [if_pos hlt]
          exact Or.inr rfl
        · simp only [if_neg hlt]
          exact Or.inl rfl
    · simp only [Bool.not_eq_true] at hp
      simp only [hp]
      exact Or.inl rfl

/-- All tables except users are untouched by the lazy pause check. -/
lemma is_user_paused_tables (uid : Int) (now : Time) (db : DB) :
    (is_user_paused uid now db).2.channels = db.channels ∧
    (is_user_paused uid now db).2.bookmakers = db.bookmakers ∧
    (is_user_paused uid now db).2.user_bookmakers = db.user_bookmakers ∧
    (is_user_paused uid now db).2.channel_bookmakers = db.channel_bookmakers ∧
    (is_user_paused uid now db).2.sent_predictions = db.sent_predictions ∧
    (is_user_paused uid now db).2.user_predictions = db.user_predictions := by
  rcases is_user_paused_snd uid now db with h | h <;>
    rw [h] <;> simp [unpause_subscription]

lemma get_user_bookmakers_congr (uid : Int) {db1 db2 : DB}
    (h1 : db1.bookmakers = db2.bookmakers)
    (h2 : db1.user_bookmakers = db2.user_bookmakers) :
    get_user_bookmakers uid db1 = get_user_bookmakers uid db2 := by
  simp only [get_user_bookmakers, h1, h2]

lemma user_pref_blocks_congr (uid : Int) (bk : String) {db1 db2 : DB}
    (h1 : db1.bookmakers = db2.bookmakers)
    (h2 : db1.user_bookmakers = db2.user_bookmakers) :
    user_pref_blocks uid bk db1 = user_pref_blocks uid bk db2 := by
  simp only [user_pref_blocks, get_user_bookmakers_congr uid h1 h2]

lemma channel_pref_blocks_congr (cid : Int) (bk : String) {db1 db2 : DB}
    (h1 : db1.bookmakers = db2.bookmakers)
    (h2 : db1.channel_bookmakers = db2.channel_bookmakers) :
    channel_pref_blocks cid bk db1 = channel_pref_blocks cid bk db2 := by
  simp only [channel_pref_blocks, channel_allowed_names, get_channel_bookmakers,
    h1, h2]

lemma is_prediction_sent_congr (k : String) {db1 db2 : DB}
    (h : db1.sent_predictions = db2.sent_predictions) :
    is_prediction_sent k db1 = is_prediction_sent k db2 := by
  simp only [is_prediction_sent, h]

/-- One channel-loop iteration touches only the channels table. -/
lemma process_channel_tables (bk k : String) (o : Int → ChanSend)
    (acc : ChanAcc) (c : ChannelRow) :
    (process_channel bk k o acc c).db.users = acc.db.users ∧
    (process_channel bk k o acc c).db.bookmakers = acc.db.bookmakers ∧
    (process_channel bk k o acc c).db.user_bookmakers = acc.db.user_bookmakers ∧
    (process_channel bk k o acc c).db.channel_bookmakers
      = acc.db.channel_bookmakers ∧
    (process_channel bk k o acc c).db.sent_predictions
      = acc.db.sent_predictions ∧
    (process_channel bk k o acc c).db.user_predictions
      = acc.db.user_predictions := by
  unfold process_channel
  split
  · exact ⟨rfl, rfl, rfl, rfl, rfl, rfl⟩
  · split
    · exact ⟨rfl, rfl, rfl, rfl, rfl, rfl⟩
    · cases o c.channel_id <;> simp [update_channel]
      split <;> simp [update_channel]

/-- One user-loop iteration touches only the users and user_predictions
tables. -/
lemma process_user_tables (bk k : String) (now : Time) (lim : SignalLimitsRow)
    (o : Int → UserSend) (acc : UserAcc) (u : UserRow) :
    (process_user bk k now lim o acc u).db.channels = acc.db.channels ∧
    (process_user bk k now lim o acc u).db.bookmakers = acc.db.bookmakers ∧
    (process_user bk k now lim o acc u).db.user_bookmakers
      = acc.db.user_bookmakers ∧
    (process_user bk k now lim o acc u).db.channel_bookmakers
      = acc.db.channel_bookmakers ∧
    (process_user bk k now lim o acc u).db.sent_predictions
      = acc.db.sent_predictions := by
  obtain ⟨h1, h2, h3, h4, h5, h6⟩ := is_user_paused_tables u.user_id now acc.db
  simp only [process_user]
  split
  · exact ⟨h1, h2, h3, h4, h5⟩
  · split
    · exact ⟨h1, h2, h3, h4, h5⟩
    · split
      · exact ⟨h1, h2, h3, h4, h5⟩
      · cases o u.user_id <;>
          simp [add_user_prediction, set_user_pause, h1, h2, h3, h4, h5] <;>
          split <;>
          simp [add_user_prediction, set_user_pause, h1, h2, h3, h4, h5]

/-- The whole channel loop touches only the channels table. -/
lemma chan_fold_tables (bk k : String) (o : Int → ChanSend)
    (l : List ChannelRow) (acc : ChanAcc) :
    (l.foldl (process_channel bk k o) acc).db.users = acc.db.users ∧
    (l.foldl (process_channel bk k o) acc).db.bookmakers = acc.db.bookmakers ∧
    (l.foldl (process_channel bk k o) acc).db.user_bookmakers
      = acc.db.user_bookmakers ∧
    (l.foldl (process_channel bk k o) acc).db.channel_bookmakers
      = acc.db.channel_bookmakers ∧
    (l.foldl (process_channel bk k o) acc).db.sent_predictions
      = acc.db.sent_predictions ∧
    (l.foldl (process_channel bk k o) acc).db.user_predictions
      = acc.db.user_predictions := by
  induction l generalizing acc with
  | nil => exact ⟨rfl, rfl, rfl, rfl, rfl, rfl⟩
  | cons c t ih =>
    obtain ⟨h1, h2, h3, h4, h5, h6⟩ := process_channel_tables bk k o acc c
    obtain ⟨g1, g2, g3, g4, g5, g6⟩ := ih (process_channel bk k o acc c)
    exact ⟨g1.trans h1, g2.trans h2, g3.trans h3, g4.trans h4, g5.trans h5,
      g6.trans h6⟩

/-- The whole user loop touches only the users and user_predictions tables. -/
lemma user_fold_tables (bk k : String) (now : Time) (lim : SignalLimitsRow)
    (o : Int → UserSend) (l : List UserRow) (acc : UserAcc) :
    (l.foldl (process_user bk k now lim o) acc).db.channels = acc.db.channels ∧
    (l.foldl (process_user bk k now lim o) acc).db.bookmakers
      = acc.db.bookmakers ∧
    (l.foldl (process_user bk k now lim o) acc).db.user_bookmakers
      = acc.db.user_bookmakers ∧
    (l.foldl (process_user bk k now lim o) acc).db.channel_bookmakers
      = acc.db.channel_bookmakers ∧
    (l.foldl (process_user bk k now lim o) acc).db.sent_predictions
      = acc.db.sent_predictions := by
  induction l generalizing acc with
  | nil => exact ⟨rfl, rfl, rfl, rfl, rfl⟩
  | cons u t ih =>
    obtain ⟨h1, h2, h3, h4, h5⟩ := process_user_tables bk k now lim o acc u
    obtain ⟨g1, g2, g3, g4, g5⟩ := ih (process_user bk k now lim o acc u)
    exact ⟨g1.trans h1, g2.trans h2, g3.trans h3, g4.trans h4, g5.trans h5⟩

/-- A channel-loop iteration either leaves the message list alone or appends
the message of its own channel, the latter only when the bookmaker filter
let the channel through. -/
lemma process_channel_messages (bk k : String) (o : Int → ChanSend)
    (acc : ChanAcc) (c : ChannelRow) :
    (process_channel bk k o acc c).messages = acc.messages ∨
    (channel_pref_blocks c.channel_id bk acc.db = false ∧
     (process_channel bk k o acc c).messages
       = acc.messages ++ [⟨Recipient.channel c.channel_id, k⟩]) := by
  unfold process_channel
  split
  · exact Or.inl rfl
  · split
    · exact Or.inl rfl
    · rename_i hnb
      have hb : channel_pref_blocks c.channel_id bk acc.db = false := by
        simpa using hnb
      cases o c.channel_id <;> simp [hb]
      split <;> simp [hb]

/-- A user-loop iteration either leaves the message list alone or appends the
message of its own user, the latter only when the bookmaker filter let the
user through (the filter reads tables the pause check never writes). -/
lemma process_user_messages (bk k : String) (now : Time)
    (lim : SignalLimitsRow) (o : Int → UserSend) (acc : UserAcc) (u : UserRow) :
    (process_user bk k now lim o acc u).messages = acc.messages ∨
    (user_pref_blocks u.user_id bk acc.db = false ∧
     (process_user bk k now lim o acc u).messages
       = acc.messages ++ [⟨Recipient.user u.user_id, k⟩]) := by
  obtain ⟨-, h2, h3, -, -, -⟩ := is_user_paused_tables u.user_id now acc.db
  simp only [process_user]
  split
  · exact Or.inl rfl
  · split
    · exact Or.inl rfl
    · split
      · exact Or.inl rfl
      · rename_i hnb
        have hb : user_pref_blocks u.user_id bk acc.db = false := by
          rw [← user_pref_blocks_congr u.user_id bk h2 h3]
          simpa using hnb
        cases o u.user_id <;> simp [hb]

/-- Every message the channel loop emits is addressed to one of its channels
and carries the fan-out's fingerprint. -/
lemma chan_fold_messages_shape (bk k : String) (o : Int → ChanSend)
    (l : List ChannelRow) (acc : ChanAcc) :
    ∀ m ∈ (l.foldl (process_channel bk k o) acc).messages,
      m ∈ acc.messages ∨ ∃ c ∈ l, m = ⟨Recipient.channel c.channel_id, k⟩ := by
  induction l generalizing acc with
  | nil => exact fun m hm => Or.inl hm
  | cons c t ih =>
    intro m hm
    rcases ih (process_channel bk k o acc c) m hm with hin | ⟨c2, hc2, he⟩
    · rcases process_channel_messages bk k o acc c with he | ⟨-, he⟩
      · exact Or.inl (he ▸ hin)
      · rw [he] at hin
        rcases List.mem_append.mp hin with h | h
        · exact Or.inl h
        · refine Or.inr ⟨c, List.mem_cons_self c t, ?_⟩
          simpa using h
    · exact Or.inr ⟨c2, List.mem_cons_of_mem c hc2, he⟩

/-- Every message the user loop emits is addressed to one of its users and
carries the fan-out's fingerprint. -/
lemma user_fold_messages_shape (bk k : String) (now : Time)
    (lim : SignalLimitsRow) (o : Int → UserSend) (l : List UserRow)
    (acc : UserAcc) :
    ∀ m ∈ (l.foldl (process_user bk k now lim o) acc).messages,
      m ∈ acc.messages ∨ ∃ u ∈ l, m = ⟨Recipient.user u.user_id, k⟩ := by
  induction l generalizing acc with
  | nil => exact fun m hm => Or.inl hm
  | cons u t ih =>
    intro m hm
    rcases ih (process_user bk k now lim o acc u) m hm with hin | ⟨u2, hu2, he⟩
    · rcases process_user_messages bk k now lim o acc u with he | ⟨-, he⟩
      · exact Or.inl (he ▸ hin)
      · rw [he] at hin
        rcases List.mem_append.mp hin with h | h
        · exact Or.inl h
        · refine Or.inr ⟨u, List.mem_cons_self u t, ?_⟩
          simpa using h
    · exact Or.inr ⟨u2, List.mem_cons_of_mem u hu2, he⟩

/-- A channel whose bookmaker filter blocks the prediction receives no
message from the channel loop, no matter where in the list its row sits. -/
lemma chan_fold_no_blocked (bk k : String) (o : Int → ChanSend) (cid : Int)
    (l : List ChannelRow) (acc : ChanAcc)
    (hblk : channel_pref_blocks cid bk acc.db = true) :
    ∀ m ∈ (l.foldl (process_channel bk k o) acc).messages,
      m ∈ acc.messages ∨ m.recipient ≠ Recipient.channel cid := by
  induction l generalizing acc with
  | nil => exact fun m hm => Or.inl hm
  | cons c t ih =>
    intro m hm
    obtain ⟨-, h2, -, h4, -, -⟩ := process_channel_tables bk k o acc c
    have hblk2 : channel_pref_blocks cid bk (process_channel bk k o acc c).db
        = true := by
      rw [channel_pref_blocks_congr cid bk h2 h4]
      exact hblk
    rcases ih (process_channel bk k o acc c) hblk2 m hm with hin | hne
    · rcases process_channel_messages bk k o acc c with he | ⟨hpref, he⟩
      · exact Or.inl (he ▸ hin)
      · rw [he] at hin
        rcases List.mem_append.mp hin with h | h
        · exact Or.inl h
        · have hm2 : m = ⟨Recipient.channel c.channel_id, k⟩ := by simpa using h
          by_cases hc : c.channel_id = cid
          · rw [hc] at hpref
            rw [hpref] at hblk
            cases hblk
          · refine Or.inr ?_
            rw [hm2]
            simpa using hc
    · exact Or.inr hne

/-- A user whose bookmaker filter blocks the prediction receives no message
from the user loop, no matter where in the list their row sits. -/
lemma user_fold_no_blocked (bk k : String) (now : Time)
    (lim : SignalLimitsRow) (o : Int → UserSend) (uid : Int)
    (l : List UserRow) (acc : UserAcc)
    (hblk : user_pref_blocks uid bk acc.db = true) :
    ∀ m ∈ (l.foldl (process_user bk k now lim o) acc).messages,
      m ∈ acc.messages ∨ m.recipient ≠ Recipient.user uid := by
  induction l generalizing acc with
  | nil => exact fun m hm => Or.inl hm
  | cons u t ih =>
    intro m hm
    obtain ⟨-, h2, h3, -, -⟩ := process_user_tables bk k now lim o acc u
    have hblk2 : user_pref_blocks uid bk (process_user bk k now lim o acc u).db
        = true := by
      rw [user_pref_blocks_congr uid bk h2 h3]
      exact hblk
    rcases ih (process_user bk k now lim o acc u) hblk2 m hm with hin | hne
    · rcases process_user_messages bk k now lim o acc u with he | ⟨hpref, he⟩
      · exact Or.inl (he ▸ hin)
      · rw [he] at hin
        rcases List.mem_append.mp hin with h | h
        · exact Or.inl h
        · have hm2 : m = ⟨Recipient.user u.user_id, k⟩ := by simpa using h
          by_cases hc : u.user_id = uid
          · rw [hc] at hpref
            rw [hpref] at hblk
            cases hblk
          · refine Or.inr ?_
            rw [hm2]
            simpa using hc
    · exact Or.inr hne

lemma add_sent_mono (k : String) (t : Time) (F : String) (db : DB)
    (h : is_prediction_sent F db = true) :
    is_prediction_sent F (add_sent_prediction k t db) = true := by
  unfold add_sent_prediction
  split
  · exact h
  · unfold is_prediction_sent at h ⊢
    simp only [List.any_append, h, Bool.true_or]

/-- Every message of one fan-out carries that prediction's fingerprint. -/
lemma fanout_messages_key (p : Prediction) (now : Time) (co : Int → ChanSend)
    (uo : Int → UserSend) (db : DB) :
    ∀ m ∈ (send_prediction_to_user_and_channel p now co uo db).messages,
      m.key = get_match_key p := by
  simp only [send_prediction_to_user_and_channel]
  split
  · intro m hm
    cases hm
  · split
    · intro m hm
      rcases chan_fold_messages_shape _ _ co db.channels _ m hm with h | ⟨c, -, he⟩
      · cases h
      · rw [he]
    · intro m hm
      rcases List.mem_append.mp hm with h | h
      · rcases chan_fold_messages_shape _ _ co db.channels _ m h with h2 | ⟨c, -, he⟩
        · cases h2
        · rw [he]
      · rcases user_fold_messages_shape _ _ now _ uo _ _ m h with h2 | ⟨u, -, he⟩
        · cases h2
        · rw [he]

/-- A fan-out never removes a fingerprint from the sent ledger. -/
lemma fanout_sent_mono (p : Prediction) (now : Time) (co : Int → ChanSend)
    (uo : Int → UserSend) (db : DB) (F : String)
    (h : is_prediction_sent F db = true) :
    is_prediction_sent F
      (send_prediction_to_user_and_channel p now co uo db).db = true := by
  simp only [send_prediction_to_user_and_channel]
  split
  · exact h
  · split
    · obtain ⟨-, -, -, -, h5, -⟩ := chan_fold_tables _ _ co db.channels _
      rw [is_prediction_sent_congr F h5]
      exact h
    · split
      · apply add_sent_mono
        obtain ⟨-, -, -, -, g5⟩ := user_fold_tables _ _ now _ uo _ _
        rw [is_prediction_sent_congr F g5]
        obtain ⟨-, -, -, -, h5, -⟩ := chan_fold_tables _ _ co db.channels _
        rw [is_prediction_sent_congr F h5]
        exact h
      · obtain ⟨-, -, -, -, g5⟩ := user_fold_tables _ _ now _ uo _ _
        rw [is_prediction_sent_congr F g5]
        obtain ⟨-, -, -, -, h5, -⟩ := chan_fold_tables _ _ co db.channels _
        rw [is_prediction_sent_congr F h5]
        exact h

/-- A user blocked by the bookmaker filter receives nothing from a whole
fan-out. -/
lemma fanout_no_user_of_blocked (p : Prediction) (now : Time)
    (co : Int → ChanSend) (uo : Int → UserSend) (db : DB) (uid : Int)
    (hblk : user_pref_blocks uid (pyStrip p.bookmaker) db = true) :
    ∀ m ∈ (send_prediction_to_user_and_channel p now co uo db).messages,
      m.recipient ≠ Recipient.user uid := by
  simp only [send_prediction_to_user_and_channel]
  split
  · intro m hm
    cases hm
  · split
    · intro m hm
      rcases chan_fold_messages_shape _ _ co db.channels _ m hm with h | ⟨c, -, he⟩
      · cases h
      · rw [he]
        simp
    · intro m hm
      rcases List.mem_append.mp hm with h | h
      · rcases chan_fold_messages_shape _ _ co db.channels _ m h with h2 | ⟨c, -, he⟩
        · cases h2
        · rw [he]
          simp
      · obtain ⟨-, h2, h3, -, -, -⟩ := chan_fold_tables _ _ co db.channels _
        have hblk2 : user_pref_blocks uid (pyStrip p.bookmaker)
            (List.foldl (process_channel (pyStrip p.bookmaker)
              (get_match_key p) co) ⟨db, [], 0, 0, 0, []⟩ db.channels).db
            = true := by
          rw [user_pref_blocks_congr uid _ h2 h3]
          exact hblk
        rcases user_fold_no_blocked _ _ now _ uo uid _ _ hblk2 m h with h2 | h2
        · cases h2
        · exact h2

/-- A channel blocked by the bookmaker filter receives nothing from a whole
fan-out. -/
lemma fanout_no_channel_of_blocked (p : Prediction) (now : Time)
    (co : Int → ChanSend) (uo : Int → UserSend) (db : DB) (cid : Int)
    (hblk : channel_pref_blocks cid (pyStrip p.bookmaker) db = true) :
    ∀ m ∈ (send_prediction_to_user_and_channel p now co uo db).messages,
      m.recipient ≠ Recipient.channel cid := by
  simp only [send_prediction_to_user_and_channel]
  split
  · intro m hm
    cases hm
  · split
    · intro m hm
      rcases chan_fold_no_blocked _ _ co cid db.channels _ hblk m hm with h | h
      · cases h
      · exact h
    · intro m hm
      rcases List.mem_append.mp hm with h | h
      · rcases chan_fold_no_blocked _ _ co cid db.channels _ hblk m h with h2 | h2
        · cases h2
        · exact h2
      · rcases user_fold_messages_shape _ _ now _ uo _ _ m h with h2 | ⟨u, -, he⟩
        · cases h2
        · rw [he]
          simp

/-- The sending loop of a pass: the ledger only grows, and every emitted
message carries the fingerprint of one of the queued predictions. -/
lemma distribute_fold_lemma (now : Time) (co : Int → ChanSend)
    (uo : Int → UserSend) (F : String) (l : List Prediction)
    (st : DB × List Outbound)
    (h1 : is_prediction_sent F st.1 = true)
    (h2 : ∀ m ∈ st.2, m.key ≠ F)
    (h3 : ∀ p ∈ l, get_match_key p ≠ F) :
    is_prediction_sent F (l.foldl (distribute_step now co uo) st).1 = true ∧
    ∀ m ∈ (l.foldl (distribute_step now co uo) st).2, m.key ≠ F := by
  induction l generalizing st with
  | nil => exact ⟨h1, h2⟩
  | cons p t ih =>
    have hsent : is_prediction_sent F (distribute_step now co uo st p).1 = true := by
      unfold distribute_step
      exact add_sent_mono _ now F _ (fanout_sent_mono p now co uo st.1 F h1)
    have hmsgs : ∀ m ∈ (distribute_step now co uo st p).2, m.key ≠ F := by
      unfold distribute_step
      intro m hm
      rcases List.mem_append.mp hm with h | h
      · exact h2 m h
      · rw [fanout_messages_key p now co uo st.1 m h]
        exact h3 p (List.mem_cons_self p t)
    exact ih (distribute_step now co uo st p) hsent hmsgs
      (fun q hq => h3 q (List.mem_cons_of_mem p hq))

/-- A pass run from a state whose ledger already holds F emits no message
with fingerprint F and keeps F in the ledger. -/
lemma pass_preserves_sent (preds : List Prediction) (now : Time)
    (co : Int → ChanSend) (uo : Int → UserSend) (db : DB) (F : String)
    (h : is_prediction_sent F db = true) :
    is_prediction_sent F
      (send_predictions_to_subscribed_users preds now co uo db).1 = true ∧
    ∀ m ∈ (send_predictions_to_subscribed_users preds now co uo db).2,
      m.key ≠ F := by
  unfold send_predictions_to_subscribed_users
  apply distribute_fold_lemma now co uo F _ (db, []) h (fun m hm => by cases hm)
  intro p hp
  have := (List.mem_filter.mp hp).2
  intro he
  rw [he, h] at this
  cases this

/-- Over any sequence of passes, a fingerprint present in the ledger stays
there and is never the fingerprint of an emitted message. -/
lemma passes_fold_lemma (co : Int → ChanSend) (uo : Int → UserSend)
    (F : String) (batches : List (Time × List Prediction))
    (st : DB × List Outbound)
    (h1 : is_prediction_sent F st.1 = true)
    (h2 : ∀ m ∈ st.2, m.key ≠ F) :
    is_prediction_sent F (batches.foldl (pass_step co uo) st).1 = true ∧
    ∀ m ∈ (batches.foldl (pass_step co uo) st).2, m.key ≠ F := by
  induction batches generalizing st with
  | nil => exact ⟨h1, h2⟩
  | cons b t ih =>
    obtain ⟨g1, g2⟩ := pass_preserves_sent b.2 b.1 co uo st.1 F h1
    refine ih (pass_step co uo st b) g1 ?_
    intro m hm
    rcases List.mem_append.mp hm with h | h
    · exact h2 m h
    · exact g2 m h

/-! ## Concrete fixtures for witnesses and counterexamples -/

def predFonbet : Prediction :=
  ⟨"Fonbet", "Football", "12/05 18:30", "", "Team A - Team B", "", ""⟩

def predWinline : Prediction :=
  ⟨"Winline", "Football", "12/05 18:30", "", "Team A - Team B", "", ""⟩

def predPaddedSport : Prediction :=
  ⟨"Fonbet", " Football", "12/05 18:30", "", "Team A - Team B", "", ""⟩

def predEmptyBookmaker : Prediction :=
  ⟨"  ", "Football", "12/05 18:30", "", "T1 - T2", "", ""⟩

def oracleChanErr : Int → ChanSend := fun _ => ChanSend.otherError

def oracleUserOk : Int → UserSend := fun _ => UserSend.ok

def oracleUserBlocked : Int → UserSend := fun _ => UserSend.botBlocked

def oracleUserRateLimited : Int → UserSend := fun _ => UserSend.retryAfter 30 true

/-- One subscribed, unpaused user with id 7 and nothing else. -/
def dbOneUser : DB :=
  ⟨[⟨7, "u", false, some 1000000, false, none⟩], [], [], [], [], [], [], []⟩

/-- dbOneUser with the Fonbet/Winline fingerprint already in the ledger. -/
def dbLedgerHasKey : DB :=
  ⟨[⟨7, "u", false, some 1000000, false, none⟩], [], [], [], [],
    [⟨"Football|12/05|Team A - Team B", 0⟩], [], []⟩

/-- A ledger row for key K written at time 0 and nothing else. -/
def dbOldLedger : DB :=
  ⟨[], [], [], [], [], [⟨"K", 0⟩], [], []⟩

/-- One subscribed user still flagged paused although pause_until = 50 has
passed. -/
def dbPausedExpired : DB :=
  ⟨[⟨7, "u", false, some 1000000, true, some 50⟩], [], [], [], [], [], [], []⟩

def user7 : UserRow := ⟨7, "u", false, some 1000000, false, none⟩

/-- User-loop accumulator whose database holds user 7 with four deliveries
recorded on the current day (clock 200, all rows at time 100). -/
def accFourToday : UserAcc :=
  ⟨⟨[user7], [], [], [], [], [],
     [⟨7, "k", 100⟩, ⟨7, "k", 100⟩, ⟨7, "k", 100⟩, ⟨7, "k", 100⟩], []⟩,
   [], 0, 0, 0, []⟩

/-- Like accFourToday but with only three same-day deliveries. -/
def accThreeToday : UserAcc :=
  ⟨⟨[user7], [], [], [], [], [],
     [⟨7, "k", 100⟩, ⟨7, "k", 100⟩, ⟨7, "k", 100⟩], []⟩,
   [], 0, 0, 0, []⟩

/-- User 7 whose only preference rows point at the deactivated bookmakers A
and B, while bookmaker C is active. -/
def dbPrefsInactive : DB :=
  ⟨[user7], [], [⟨1, "A", false⟩, ⟨2, "B", false⟩, ⟨3, "C", true⟩],
    [⟨7, 1⟩, ⟨7, 2⟩], [], [], [], []⟩

def predC : Prediction := ⟨"C", "S", "12/05 18:30", "", "T1 - T2", "", ""⟩

/-- User 7 prefers the active bookmakers A and B, channel -100 selects A and
B, and bookmaker C is also active. -/
def dbPrefsAB : DB :=
  ⟨[user7], [⟨-100, "ch", true⟩],
    [⟨1, "A", true⟩, ⟨2, "B", true⟩, ⟨3, "C", true⟩],
    [⟨7, 1⟩, ⟨7, 2⟩],
    [⟨-100, 1, true⟩, ⟨-100, 2, true⟩],
    [], [], []⟩

def oracleChanRetryFail : Int → ChanSend := fun _ => ChanSend.retryAfter 30 false

def oracleChanRetryOk : Int → ChanSend := fun _ => ChanSend.retryAfter 30 true

/-- Channel-loop accumulator over an empty database. -/
def accChanEmpty : ChanAcc := ⟨⟨[], [], [], [], [], [], [], []⟩, [], 0, 0, 0, []⟩

def chanRow : ChannelRow := ⟨-100, "ch", true⟩

/-- The leading two-digits-slash-two-digits segment of a string, when the
string starts with one. -/
def leadingDdSlashDd (s : String) : Option String :=
  match s.data with
  | a :: b :: c :: d :: e :: _ =>
      if a.isDigit && b.isDigit && c == '/' && d.isDigit && e.isDigit then
        some (String.mk [a, b, c, d, e])
      else none
  | _ => none

/-- Modelled from the spec's words for the fingerprint (with the sport and
teams fields whitespace-trimmed like the date field): sport, a bar, the
leading dd/dd segment of the trimmed date — or the whole trimmed date when
there is none — a bar, and teams; the bookmaker field is not used. -/
def fingerprint_spec (p : Prediction) : String :=
  pyStrip p.sport ++ "|"
    ++ ((leadingDdSlashDd (pyStrip p.date)).getD (pyStrip p.date))
    ++ "|" ++ pyStrip p.teams

lemma date_short_eq (s : String) :
    (if ddSlashDd s.data then String.mk (s.data.take 5) else s)
      = (leadingDdSlashDd s).getD s := by
  unfold ddSlashDd leadingDdSlashDd
  rcases h : s.data with - | ⟨a, - | ⟨b, - | ⟨c, - | ⟨d, - | ⟨e, t⟩⟩⟩⟩⟩ <;>
    simp only [h] <;> try rfl
  by_cases hc : (a.isDigit && b.isDigit && (c == '/') && d.isDigit && e.isDigit) = true
  · simp [hc]
  · simp [Bool.eq_false_iff.mpr hc]

/-! ## Claim theorems -/

/-- C8 counterexample: get_match_key strips the sport (and teams) fields, so
on a sport field with leading whitespace it differs from the claimed
concatenation of the raw sport field; the code's actual output is the
trimmed form. -/
theorem c8_match_key_counterexample :
    get_match_key predPaddedSport
        ≠ predPaddedSport.sport ++ "|" ++ "12/05" ++ "|" ++ predPaddedSport.teams ∧
    pyStrip (pyStrip predPaddedSport.date) = "12/05 18:30" ∧
    get_match_key predPaddedSport = "Football|12/05|Team A - Team B" := by
  refine ⟨by decide, rfl, rfl⟩

/-- C8 amended: get_match_key equals the spec formula taken over the
whitespace-trimmed sport, date and teams fields; it never depends on the
bookmaker field; and on the claim's concrete scenario both the Fonbet and
the Winline record yield "Football|12/05|Team A - Team B". -/
theorem c8_match_key_spec :
    (∀ p : Prediction, get_match_key p = fingerprint_spec p) ∧
    (∀ p q : Prediction, p.sport = q.sport → p.date = q.date →
      p.teams = q.teams → get_match_key p = get_match_key q) ∧
    get_match_key predFonbet = "Football|12/05|Team A - Team B" ∧
    get_match_key predWinline = "Football|12/05|Team A - Team B" := by
  refine ⟨?_, ?_, rfl, rfl⟩
  · intro p
    simp only [get_match_key, fingerprint_spec]
    rw [date_short_eq (pyStrip p.date)]
  · intro p q h1 h2 h3
    simp [get_match_key, h1, h2, h3]

/-- C8 witness: the amended theorem applied to the concrete Fonbet and
Winline records. -/
theorem c8_match_key_spec_witness :
    get_match_key predFonbet = fingerprint_spec predFonbet ∧
    get_match_key predFonbet = get_match_key predWinline :=
  ⟨c8_match_key_spec.1 predFonbet,
   c8_match_key_spec.2.1 predFonbet predWinline rfl rfl rfl⟩

/-- C10: add_user is INSERT OR IGNORE, so calling it for an existing user_id
leaves the whole database — in particular that user's username, admin flag,
subscription end date and pause fields — unchanged. -/
theorem c10_add_user_existing_noop :
    ∀ (db : DB) (uid : Int) (un : String) (adm : Bool) (u : UserRow),
      get_user uid db = some u → add_user uid un adm db = db := by
  intro db uid un adm u h
  unfold add_user
  have h2 : db.users.find? (fun v => v.user_id == uid) = some u := h
  have hp := List.find?_some h2
  have ha : db.users.any (fun v => v.user_id == uid) = true :=
    List.any_eq_true.mpr ⟨u, List.mem_of_find?_eq_some h2, hp⟩
  rw [ha]
  simp

/-- C10 witness: re-adding the existing non-admin user 7 with is_admin true
changes nothing, so admin rights are not granted. -/
theorem c10_add_user_existing_noop_witness :
    add_user 7 "other" true dbOneUser = dbOneUser ∧
    (get_user 7 (add_user 7 "other" true dbOneUser)).map
      (fun u => u.is_admin) = some false := by
  have h := c10_add_user_existing_noop dbOneUser 7 "other" true
    ⟨7, "u", false, some 1000000, false, none⟩ (by decide)
  exact ⟨h, by rw [h]; rfl⟩

/-- C4 counterexample: is_prediction_sent reads the ledger with no age
condition, so a row eight days old (sent_at 0, clock 691200) is still
reported as sent; the exclusion the claim describes only happens via the
pruning sweep. -/
theorem c4_is_sent_counterexample :
    dbOldLedger.sent_predictions = [⟨"K", 0⟩] ∧
    (0 : Int) < 691200 - 7 * secondsPerDay ∧
    is_prediction_sent "K" dbOldLedger = true := by
  decide

/-- C4 amended: once the pruning sweep delete_old_predictions has run, a
fingerprint all of whose ledger rows are older than 7 days is no longer
reported sent, so such a prediction is treated as new again; between sweeps
the lookup ignores the timestamp. -/
theorem c4_retention_after_sweep :
    ∀ (db : DB) (now : Time) (F : String),
      (∀ r ∈ db.sent_predictions, r.prediction_key = F →
        r.sent_at < now - 7 * secondsPerDay) →
      is_prediction_sent F (delete_old_predictions now db) = false := by
  intro db now F h
  unfold is_prediction_sent delete_old_predictions
  rw [List.any_eq_false]
  intro r hr
  obtain ⟨hmem, hkeep⟩ := List.mem_filter.mp hr
  intro hbeq
  have hk : r.prediction_key = F := by simpa using hbeq
  have := h r hmem hk
  simp [this] at hkeep

/-- C4 witness: the amended theorem applied to the eight-day-old row. -/
theorem c4_retention_after_sweep_witness :
    is_prediction_sent "K" (delete_old_predictions 691200 dbOldLedger) = false :=
  c4_retention_after_sweep dbOldLedger 691200 "K" (by decide)

/-- C2: once a fingerprint F is in the sent ledger, any sequence of later
distribution passes — whatever their batches, clocks and delivery outcomes —
emits no outbound message carrying F to any channel or user: the pass filter
drops every prediction whose key is already recorded, and passes never
remove ledger entries. -/
theorem c2_idempotent_fanout :
    ∀ (db : DB) (batches : List (Time × List Prediction))
      (co : Int → ChanSend) (uo : Int → UserSend) (F : String),
      is_prediction_sent F db = true →
      keys_avoid F (run_passes batches co uo db).2 = true := by
  intro db batches co uo F h
  rw [keys_avoid_iff]
  exact (passes_fold_lemma co uo F batches (db, []) h (fun m hm => by cases hm)).2

/-- C2 witness: with the Fonbet fingerprint already recorded, a later pass
over the Fonbet prediction (with a deliverable subscribed user) emits no
message with that fingerprint. -/
theorem c2_idempotent_fanout_witness :
    keys_avoid "Football|12/05|Team A - Team B"
      (run_passes [(200, [predFonbet])] oracleChanErr oracleUserOk
        dbLedgerHasKey).2 = true :=
  c2_idempotent_fanout dbLedgerHasKey [(200, [predFonbet])] oracleChanErr
    oracleUserOk "Football|12/05|Team A - Team B" (by decide)

/-- C3: a user whose stored pause_until lies in the past is reported
unpaused by the very next is_user_paused check, which also clears the stored
flag write-through; in the resulting state the user (whose subscription is
still active) again appears in the active-user snapshot the distribution
pass iterates, and the pass's in-loop pause re-check also returns false —
all without the periodic sweep having run. -/
theorem c3_pause_expiry :
    ∀ (db : DB) (uid : Int) (now t d : Time) (u : UserRow),
      get_user uid db = some u → u.pause_until = some t → t < now →
      u.end_date = some d → now < d →
      (is_user_paused uid now db).1 = false ∧
      get_user uid (is_user_paused uid now db).2
        = some { u with is_paused := false } ∧
      (get_all_active_users now (is_user_paused uid now db).2).any
        (fun v => v.user_id == uid) = true ∧
      (is_user_paused uid now (is_user_paused uid now db).2).1 = false := by
  intro db uid now t d u hu hpu hlt hed hnd
  have h2 : db.users.find? (fun v => v.user_id == uid) = some u := hu
  have hpred := List.find?_some h2
  have humem := List.mem_of_find?_eq_some h2
  by_cases hp : u.is_paused = true
  · have hval : is_user_paused uid now db
        = (false, unpause_subscription uid db) := by
      unfold is_user_paused
      rw [hu]
      simp [hp, hpu, hlt]
    have hg : get_user uid (unpause_subscription uid db)
        = some { u with is_paused := false } := by
      rw [get_user_unpause, hu]
      rfl
    rw [hval]
    refine ⟨rfl, hg, ?_, ?_⟩
    · have himg : (fun v =>
            if v.user_id == uid then { v with is_paused := false } else v) u
          = { u with is_paused := false } := by
        simp only [hpred, if_pos]
      have hmem2 : ({ u with is_paused := false } : UserRow)
          ∈ (unpause_subscription uid db).users := by
        rw [← himg]
        exact List.mem_map_of_mem _ humem
      refine List.any_eq_true.mpr ⟨{ u with is_paused := false }, ?_, ?_⟩
      · refine List.mem_filter.mpr ⟨hmem2, ?_⟩
        simp [hed, hnd]
      · simpa using hpred
    · unfold is_user_paused
      rw [hg]
      simp
  · simp only [Bool.not_eq_true] at hp
    have hval : is_user_paused uid now db = (false, db) := by
      unfold is_user_paused
      rw [hu]
      simp [hp]
    have hue : ({ u with is_paused := false } : UserRow) = u := by
      cases u
      simp_all
    rw [hval]
    refine ⟨rfl, by rw [hue]; exact hu, ?_, ?_⟩
    · refine List.any_eq_true.mpr ⟨u, ?_, by simpa using hpred⟩
      refine List.mem_filter.mpr ⟨humem, ?_⟩
      simp [hed, hnd, hp]
    · have hsnd : ((false, db) : Bool × DB).2 = db := rfl
      rw [hsnd, hval]

/-- C3 witness: user 7 paused until time 50 evaluated at time 100. -/
theorem c3_pause_expiry_witness :
    (is_user_paused 7 100 dbPausedExpired).1 = false ∧
    get_user 7 (is_user_paused 7 100 dbPausedExpired).2
      = some ⟨7, "u", false, some 1000000, false, some 50⟩ ∧
    (get_all_active_users 100 (is_user_paused 7 100 dbPausedExpired).2).any
      (fun v => v.user_id == 7) = true ∧
    (is_user_paused 7 100 (is_user_paused 7 100 dbPausedExpired).2).1 = false :=
  c3_pause_expiry dbPausedExpired 7 100 50 1000000
    ⟨7, "u", false, some 1000000, true, some 50⟩ (by decide) rfl (by decide)
    rfl (by decide)

/-- C1: the sending loop of send_predictions_to_subscribed_users calls
add_sent_prediction unconditionally right after the fan-out returns, so the
fingerprint is committed even when not a single delivery succeeded: both for
the empty-bookmaker no-op skip and for a pass in which the only eligible
user's delivery fails, the pass emits no message yet the ledger gains the
fingerprint — contradicting the effective-broadcast invariant that the
fan-out's own final marking implements. -/
theorem c1_ledger_commit_without_delivery :
    ((send_predictions_to_subscribed_users [predEmptyBookmaker] 0
        oracleChanErr oracleUserOk dbOneUser).2 = [] ∧
      is_prediction_sent (get_match_key predEmptyBookmaker)
        (send_predictions_to_subscribed_users [predEmptyBookmaker] 0
          oracleChanErr oracleUserOk dbOneUser).1 = true) ∧
    ((send_predictions_to_subscribed_users [predFonbet] 200
        oracleChanErr oracleUserBlocked dbOneUser).2 = [] ∧
      is_prediction_sent (get_match_key predFonbet)
        (send_predictions_to_subscribed_users [predFonbet] 200
          oracleChanErr oracleUserBlocked dbOneUser).1 = true) := by
  decide

/-- C5: with pause_after_signals = 5, an eligible user's successful delivery
is always recorded (message emitted and ledger row appended), and when it is
the fifth of the calendar day the user is immediately paused with
pause_until = now + pause_duration_hours, while a fourth same-day delivery
leaves the user's row untouched — the pause happens after the send that
crosses the threshold, never before it. -/
theorem c5_quota_threshold :
    ∀ (bk key : String) (now : Time) (lim : SignalLimitsRow)
      (o : Int → UserSend) (acc : UserAcc) (u : UserRow) (u0 : UserRow),
      lim.pause_after_signals = 5 → 4 < lim.max_signals_per_day →
      get_user u.user_id acc.db = some u0 → u0.is_paused = false →
      user_pref_blocks u.user_id bk acc.db = false →
      o u.user_id = UserSend.ok →
      ((get_user_daily_signal_count u.user_id now acc.db = 4 →
        (process_user bk key now lim o acc u).messages
          = acc.messages ++ [⟨Recipient.user u.user_id, key⟩] ∧
        (process_user bk key now lim o acc u).db.user_predictions
          = acc.db.user_predictions ++ [⟨u.user_id, key, now⟩] ∧
        get_user u.user_id (process_user bk key now lim o acc u).db
          = some { u0 with is_paused := true, pause_until := some (now + (lim.pause_duration_hours : Int) * 3600) }) ∧
       (get_user_daily_signal_count u.user_id now acc.db = 3 →
        (process_user bk key now lim o acc u).messages
          = acc.messages ++ [⟨Recipient.user u.user_id, key⟩] ∧
        (process_user bk key now lim o acc u).db.user_predictions
          = acc.db.user_predictions ++ [⟨u.user_id, key, now⟩] ∧
        get_user u.user_id (process_user bk key now lim o acc u).db
          = some u0)) := by
  intro bk key now lim o acc u u0 hpa hmax hu0 hnp hblk hok
  have hpause : is_user_paused u.user_id now acc.db = (false, acc.db) := by
    unfold is_user_paused
    rw [hu0]
    simp [hnp]
  constructor
  · intro hd
    have hle : ¬ lim.max_signals_per_day ≤ 4 := Nat.not_le.mpr hmax
    have hthr : lim.pause_after_signals ≤ 4 + 1 := by rw [hpa]
    simp only [process_user, hpause, hd, hblk, hok]
    simp only [hle, if_false, Bool.false_eq_true, reduceIte, hthr, if_true]
    refine ⟨by trivial, ?_, ?_⟩
    · simp [set_user_pause, add_user_prediction]
    · rw [get_user_set_user_pause, get_user_add_user_prediction, hu0]
      rfl
  · intro hd
    have hle : ¬ lim.max_signals_per_day ≤ 3 := Nat.not_le.mpr
      (Nat.lt_trans (by decide) hmax)
    have hthr : ¬ lim.pause_after_signals ≤ 3 + 1 := by rw [hpa]; decide
    simp only [process_user, hpause, hd, hblk, hok]
    simp only [hle, if_false, Bool.false_eq_true, reduceIte, hthr]
    refine ⟨by trivial, ?_, ?_⟩
    · simp [add_user_prediction]
    · rw [get_user_add_user_prediction, hu0]

/-- C5 witness: user 7 with four (three) same-day deliveries under the
default 10/5/24 limits. -/
theorem c5_quota_threshold_witness :
    (process_user "Fonbet" "K" 200 ⟨10, 5, 24⟩ oracleUserOk accFourToday
        user7).messages = [⟨Recipient.user 7, "K"⟩] ∧
    get_user 7 (process_user "Fonbet" "K" 200 ⟨10, 5, 24⟩ oracleUserOk
        accFourToday user7).db
      = some ⟨7, "u", false, some 1000000, true, some 86600⟩ ∧
    (process_user "Fonbet" "K" 200 ⟨10, 5, 24⟩ oracleUserOk accThreeToday
        user7).messages = [⟨Recipient.user 7, "K"⟩] ∧
    get_user 7 (process_user "Fonbet" "K" 200 ⟨10, 5, 24⟩ oracleUserOk
        accThreeToday user7).db = some user7 := by
  have h4 := c5_quota_threshold "Fonbet" "K" 200 ⟨10, 5, 24⟩ oracleUserOk
    accFourToday user7 user7 rfl (by decide) (by decide) rfl (by decide) rfl
  have h3 := c5_quota_threshold "Fonbet" "K" 200 ⟨10, 5, 24⟩ oracleUserOk
    accThreeToday user7 user7 rfl (by decide) (by decide) rfl (by decide) rfl
  obtain ⟨m4, -, g4⟩ := h4.1 (by decide)
  obtain ⟨m3, -, g3⟩ := h3.2 (by decide)
  exact ⟨by simpa using m4, by simpa using g4, by simpa using m3, g3⟩

/-- C9: a user all of whose preference rows point at deactivated bookmakers
has an empty effective preference list, the bookmaker filter never skips
them, and an otherwise eligible such user is delivered the prediction —
wildcard behaviour, not exclusion. -/
theorem c9_inactive_prefs_wildcard :
    ∀ (db : DB) (uid : Int) (bk key : String) (now : Time)
      (lim : SignalLimitsRow) (o : Int → UserSend) (acc : UserAcc)
      (u : UserRow) (u0 : UserRow),
      (∀ b ∈ db.bookmakers,
        db.user_bookmakers.any
          (fun r => r.user_id == uid && r.bookmaker_id == b.id) = true →
        b.is_active = false) →
      acc.db = db → u.user_id = uid →
      get_user uid db = some u0 → u0.is_paused = false →
      get_user_daily_signal_count uid now db < lim.max_signals_per_day →
      o uid = UserSend.ok →
      get_user_bookmakers uid db = [] ∧
      user_pref_blocks uid bk db = false ∧
      (process_user bk key now lim o acc u).messages
        = acc.messages ++ [⟨Recipient.user uid, key⟩] := by
  intro db uid bk key now lim o acc u u0 h hacc huid hu0 hnp hlt hok
  have hempty : get_user_bookmakers uid db = [] := by
    unfold get_user_bookmakers
    rw [List.filter_eq_nil_iff]
    intro b hb
    cases hany : db.user_bookmakers.any
        (fun r => r.user_id == uid && r.bookmaker_id == b.id) with
    | true => simp [h b hb hany]
    | false => simp [hany]
  have hblk : user_pref_blocks uid bk db = false := by
    unfold user_pref_blocks
    rw [hempty]
    rfl
  refine ⟨hempty, hblk, ?_⟩
  subst hacc
  subst huid
  have hpause : is_user_paused u.user_id now acc.db = (false, acc.db) := by
    unfold is_user_paused
    rw [hu0]
    simp [hnp]
  have hle : ¬ lim.max_signals_per_day
      ≤ get_user_daily_signal_count u.user_id now acc.db := Nat.not_le.mpr hlt
  simp only [process_user, hpause, hblk, hok]
  simp only [hle, if_false, Bool.false_eq_true, reduceIte]

/-- C9 witness: user 7 preferring only the deactivated bookmakers A and B is
delivered a prediction for bookmaker C. -/
theorem c9_inactive_prefs_wildcard_witness :
    get_user_bookmakers 7 dbPrefsInactive = [] ∧
    user_pref_blocks 7 "C" dbPrefsInactive = false ∧
    (process_user "C" "S|12/05|T1 - T2" 200 ⟨10, 5, 24⟩ oracleUserOk
        ⟨dbPrefsInactive, [], 0, 0, 0, []⟩ user7).messages
      = [] ++ [⟨Recipient.user 7, "S|12/05|T1 - T2"⟩] :=
  c9_inactive_prefs_wildcard dbPrefsInactive 7 "C" "S|12/05|T1 - T2" 200
    ⟨10, 5, 24⟩ oracleUserOk ⟨dbPrefsInactive, [], 0, 0, 0, []⟩ user7 user7
    (by decide) rfl rfl (by decide) rfl (by decide) rfl

/-- C7 counterexample: a user delivery that fails with a rate-limit signal —
whose retry would have succeeded — is counted straight as an error after a
single transport attempt: the user loop has no RetryAfter handler, so no
sleep-and-retry happens for users, contradicting the claim's universal
"for every recipient". -/
theorem c7_user_rate_limit_counterexample :
    (send_prediction_to_user_and_channel predFonbet 200 oracleChanErr
        oracleUserRateLimited dbOneUser).attempts = [(Recipient.user 7, 1)] ∧
    (send_prediction_to_user_and_channel predFonbet 200 oracleChanErr
        oracleUserRateLimited dbOneUser).user_errors = 1 ∧
    (send_prediction_to_user_and_channel predFonbet 200 oracleChanErr
        oracleUserRateLimited dbOneUser).messages = [] := by
  decide

/-- C7 amended: a rate-limited channel delivery is retried exactly once
(two transport attempts), counting as sent when the retry succeeds and as an
error otherwise, with processing moving on either way; a rate-limited user
delivery is not retried at all — one transport attempt, counted as an error
by the generic handler, and processing moves on. -/
theorem c7_rate_limit_retry :
    (∀ (bk k : String) (o : Int → ChanSend) (acc : ChanAcc) (c : ChannelRow)
        (n : Nat),
      c.is_active = true → channel_pref_blocks c.channel_id bk acc.db = false →
      o c.channel_id = ChanSend.retryAfter n false →
      (process_channel bk k o acc c).messages = acc.messages ∧
      (process_channel bk k o acc c).errors = acc.errors + 1 ∧
      (process_channel bk k o acc c).attempts
        = acc.attempts ++ [(Recipient.channel c.channel_id, 2)] ∧
      (process_channel bk k o acc c).db = acc.db) ∧
    (∀ (bk k : String) (o : Int → ChanSend) (acc : ChanAcc) (c : ChannelRow)
        (n : Nat),
      c.is_active = true → channel_pref_blocks c.channel_id bk acc.db = false →
      o c.channel_id = ChanSend.retryAfter n true →
      (process_channel bk k o acc c).messages
        = acc.messages ++ [⟨Recipient.channel c.channel_id, k⟩] ∧
      (process_channel bk k o acc c).sent = acc.sent + 1 ∧
      (process_channel bk k o acc c).attempts
        = acc.attempts ++ [(Recipient.channel c.channel_id, 2)] ∧
      (process_channel bk k o acc c).db = acc.db) ∧
    (∀ (bk k : String) (now : Time) (lim : SignalLimitsRow)
        (o : Int → UserSend) (acc : UserAcc) (u : UserRow) (u0 : UserRow)
        (n : Nat) (b : Bool),
      get_user u.user_id acc.db = some u0 → u0.is_paused = false →
      get_user_daily_signal_count u.user_id now acc.db
        < lim.max_signals_per_day →
      user_pref_blocks u.user_id bk acc.db = false →
      o u.user_id = UserSend.retryAfter n b →
      (process_user bk k now lim o acc u).messages = acc.messages ∧
      (process_user bk k now lim o acc u).errors = acc.errors + 1 ∧
      (process_user bk k now lim o acc u).attempts
        = acc.attempts ++ [(Recipient.user u.user_id, 1)] ∧
      (process_user bk k now lim o acc u).db = acc.db) := by
  refine ⟨?_, ?_, ?_⟩
  · intro bk k o acc c n hact hblk hor
    simp [process_channel, hact, hblk, hor]
  · intro bk k o acc c n hact hblk hor
    simp [process_channel, hact, hblk, hor]
  · intro bk k now lim o acc u u0 n b hu0 hnp hlt hblk hor
    have hpause : is_user_paused u.user_id now acc.db = (false, acc.db) := by
      unfold is_user_paused
      rw [hu0]
      simp [hnp]
    have hle : ¬ lim.max_signals_per_day
        ≤ get_user_daily_signal_count u.user_id now acc.db := Nat.not_le.mpr hlt
    simp only [process_user, hpause, hblk, hor]
    simp [hle]

/-- C7 witness: one active channel rate-limited with a failing retry, one
with a succeeding retry, and rate-limited user 7. -/
theorem c7_rate_limit_retry_witness :
    (process_channel "Fonbet" "K" oracleChanRetryFail accChanEmpty
        chanRow).attempts = [] ++ [(Recipient.channel (-100), 2)] ∧
    (process_channel "Fonbet" "K" oracleChanRetryFail accChanEmpty
        chanRow).errors = 0 + 1 ∧
    (process_channel "Fonbet" "K" oracleChanRetryOk accChanEmpty
        chanRow).messages = [] ++ [⟨Recipient.channel (-100), "K"⟩] ∧
    (process_user "Fonbet" "K" 200 ⟨10, 5, 24⟩
        (fun _ => UserSend.retryAfter 30 true) ⟨dbOneUser, [], 0, 0, 0, []⟩
        user7).attempts = [] ++ [(Recipient.user 7, 1)] ∧
    (process_user "Fonbet" "K" 200 ⟨10, 5, 24⟩
        (fun _ => UserSend.retryAfter 30 true) ⟨dbOneUser, [], 0, 0, 0, []⟩
        user7).errors = 0 + 1 := by
  have hf := c7_rate_limit_retry.1 "Fonbet" "K" oracleChanRetryFail
    accChanEmpty chanRow 30 rfl (by decide) rfl
  have hs := c7_rate_limit_retry.2.1 "Fonbet" "K" oracleChanRetryOk
    accChanEmpty chanRow 30 rfl (by decide) rfl
  have hu := c7_rate_limit_retry.2.2 "Fonbet" "K" 200 ⟨10, 5, 24⟩
    (fun _ => UserSend.retryAfter 30 true) ⟨dbOneUser, [], 0, 0, 0, []⟩
    user7 user7 30 true (by decide) rfl (by decide) (by decide) rfl
  exact ⟨hf.2.2.1, hf.2.1, hs.1, hu.2.2.1, hu.2.1⟩

/-- C6 counterexample: user 7's preference rows are exactly the bookmakers A
and B, yet a prediction for the bookmaker C outside the pair IS delivered to
user 7, because A and B are deactivated, their rows vanish from the
active-bookmaker join and the empty result falls back to the wildcard. -/
theorem c6_pref_pair_counterexample :
    dbPrefsInactive.user_bookmakers = [⟨7, 1⟩, ⟨7, 2⟩] ∧
    dbPrefsInactive.bookmakers
      = [⟨1, "A", false⟩, ⟨2, "B", false⟩, ⟨3, "C", true⟩] ∧
    pyStrip predC.bookmaker = "C" ∧
    (send_prediction_to_user_and_channel predC 200 oracleChanErr oracleUserOk
        dbPrefsInactive).messages
      = [⟨Recipient.user 7, "S|12/05|T1 - T2"⟩] := by
  decide

/-- C6 amended: a recipient (user or channel) with zero preference rows is
never skipped by the bookmaker filter; a recipient whose preference rows are
exactly the pair A, B, at least one of which is currently active, never
receives a prediction whose bookmaker is some C outside the pair (when every
preferred bookmaker is deactivated the wildcard applies instead). -/
theorem c6_wildcard_and_pair_filter :
    (∀ (db : DB) (uid : Int) (bk : String),
      (∀ r ∈ db.user_bookmakers, r.user_id ≠ uid) →
      user_pref_blocks uid bk db = false) ∧
    (∀ (db : DB) (cid : Int) (bk : String),
      (∀ r ∈ db.channel_bookmakers, r.channel_id ≠ cid) →
      channel_pref_blocks cid bk db = false) ∧
    (∀ (db : DB) (uid : Int) (A B : BookmakerRow) (p : Prediction)
        (now : Time) (co : Int → ChanSend) (uo : Int → UserSend),
      A ∈ db.bookmakers → B ∈ db.bookmakers → A.is_active = true →
      (∀ b1 ∈ db.bookmakers, ∀ b2 ∈ db.bookmakers, b1.id = b2.id → b1 = b2) →
      (∀ r ∈ db.user_bookmakers, r.user_id = uid →
        r.bookmaker_id = A.id ∨ r.bookmaker_id = B.id) →
      (⟨uid, A.id⟩ : UserBookmakerRow) ∈ db.user_bookmakers →
      pyStrip p.bookmaker ≠ A.name → pyStrip p.bookmaker ≠ B.name →
      user_pref_blocks uid (pyStrip p.bookmaker) db = true ∧
      msgs_avoid (Recipient.user uid)
        (send_prediction_to_user_and_channel p now co uo db).messages
        = true) ∧
    (∀ (db : DB) (cid : Int) (A B : BookmakerRow) (p : Prediction)
        (now : Time) (co : Int → ChanSend) (uo : Int → UserSend),
      A ∈ db.bookmakers → B ∈ db.bookmakers → A.is_active = true →
      (∀ b1 ∈ db.bookmakers, ∀ b2 ∈ db.bookmakers, b1.id = b2.id → b1 = b2) →
      (∀ r1 ∈ db.channel_bookmakers, ∀ r2 ∈ db.channel_bookmakers,
        r1.channel_id = r2.channel_id → r1.bookmaker_id = r2.bookmaker_id →
        r1 = r2) →
      (∀ r ∈ db.channel_bookmakers, r.channel_id = cid →
        r.is_selected = true →
        r.bookmaker_id = A.id ∨ r.bookmaker_id = B.id) →
      (⟨cid, A.id, true⟩ : ChannelBookmakerRow) ∈ db.channel_bookmakers →
      pyStrip p.bookmaker ≠ A.name → pyStrip p.bookmaker ≠ B.name →
      channel_pref_blocks cid (pyStrip p.bookmaker) db = true ∧
      msgs_avoid (Recipient.channel cid)
        (send_prediction_to_user_and_channel p now co uo db).messages
        = true) := by
  refine ⟨?_, ?_, ?_, ?_⟩
  · intro db uid bk h
    have hempty : get_user_bookmakers uid db = [] := by
      unfold get_user_bookmakers
      rw [List.filter_eq_nil_iff]
      intro b hb
      have hany : db.user_bookmakers.any
          (fun r => r.user_id == uid && r.bookmaker_id == b.id) = false := by
        rw [List.any_eq_false]
        intro r hr
        simp [h r hr]
      simp [hany]
    unfold user_pref_blocks
    rw [hempty]
    rfl
  · intro db cid bk h
    have hgcb : get_channel_bookmakers cid db = [] := by
      unfold get_channel_bookmakers
      rw [List.filterMap_eq_nil_iff]
      intro b hb
      have hfind : db.channel_bookmakers.find?
          (fun r => r.channel_id == cid && r.bookmaker_id == b.id) = none := by
        rw [List.find?_eq_none]
        intro r hr
        simp [h r hr]
      rw [hfind]
    unfold channel_pref_blocks channel_allowed_names
    rw [hgcb]
    rfl
  · intro db uid A B p now co uo hA hB hact huniq hrows hlink hnA hnB
    have hAmem : A ∈ get_user_bookmakers uid db := by
      refine List.mem_filter.mpr ⟨hA, ?_⟩
      have hany : db.user_bookmakers.any
          (fun r => r.user_id == uid && r.bookmaker_id == A.id) = true :=
        List.any_eq_true.mpr ⟨⟨uid, A.id⟩, hlink, by simp⟩
      simp [hact, hany]
    have hblk : user_pref_blocks uid (pyStrip p.bookmaker) db = true := by
      have hie : (get_user_bookmakers uid db).isEmpty = false := by
        cases hge : get_user_bookmakers uid db with
        | nil => rw [hge] at hAmem; cases hAmem
        | cons x xs => rfl
      have hcon : ((get_user_bookmakers uid db).map
          (fun b => b.name)).contains (pyStrip p.bookmaker) = false := by
        cases hc : ((get_user_bookmakers uid db).map
            (fun b => b.name)).contains (pyStrip p.bookmaker) with
        | false => rfl
        | true =>
          exfalso
          have hmm : pyStrip p.bookmaker
              ∈ (get_user_bookmakers uid db).map (fun b => b.name) := by
            simpa using hc
          obtain ⟨b, hbmem, hbname⟩ := List.mem_map.mp hmm
          obtain ⟨hbdb, hbpred⟩ := List.mem_filter.mp hbmem
          rw [Bool.and_eq_true] at hbpred
          obtain ⟨-, hany⟩ := hbpred
          obtain ⟨r, hrmem, hrpred⟩ := List.any_eq_true.mp hany
          rw [Bool.and_eq_true] at hrpred
          obtain ⟨hru, hrb⟩ := hrpred
          have hru2 : r.user_id = uid := by simpa using hru
          have hrb2 : r.bookmaker_id = b.id := by simpa using hrb
          rcases hrows r hrmem hru2 with hid | hid
          · rw [hrb2] at hid
            have hbe : b = A := huniq b hbdb A hA hid
            exact hnA (by rw [← hbname, hbe])
          · rw [hrb2] at hid
            have hbe : b = B := huniq b hbdb B hB hid
            exact hnB (by rw [← hbname, hbe])
      simp only [user_pref_blocks]
      rw [hie, hcon]
      rfl
    refine ⟨hblk, ?_⟩
    rw [msgs_avoid_iff]
    exact fanout_no_user_of_blocked p now co uo db uid hblk
  · intro db cid A B p now co uo hA hB hact huniq hPK hrows hlink hnA hnB
    have hfindA : db.channel_bookmakers.find?
        (fun r => r.channel_id == cid && r.bookmaker_id == A.id)
        = some ⟨cid, A.id, true⟩ := by
      apply find?_eq_some_of_unique _ _ _ hlink (by simp)
      intro s hs hps
      rw [Bool.and_eq_true] at hps
      obtain ⟨hs1, hs2⟩ := hps
      exact hPK s hs ⟨cid, A.id, true⟩ hlink (by simpa using hs1)
        (by simpa using hs2)
    have hpair : (A, true) ∈ get_channel_bookmakers cid db := by
      unfold get_channel_bookmakers
      refine List.mem_filterMap.mpr ⟨A, List.mem_filter.mpr ⟨hA, hact⟩, ?_⟩
      rw [hfindA]
    have hname : A.name ∈ channel_allowed_names cid db := by
      unfold channel_allowed_names
      exact List.mem_map.mpr ⟨(A, true),
        List.mem_filter.mpr ⟨hpair, rfl⟩, rfl⟩
    have hblk : channel_pref_blocks cid (pyStrip p.bookmaker) db = true := by
      have hie : (channel_allowed_names cid db).isEmpty = false := by
        cases hge : channel_allowed_names cid db with
        | nil => rw [hge] at hname; cases hname
        | cons x xs => rfl
      have hcon : (channel_allowed_names cid db).contains
          (pyStrip p.bookmaker) = false := by
        cases hc : (channel_allowed_names cid db).contains
            (pyStrip p.bookmaker) with
        | false => rfl
        | true =>
          exfalso
          have hmm : pyStrip p.bookmaker ∈ channel_allowed_names cid db := by
            simpa using hc
          unfold channel_allowed_names at hmm
          obtain ⟨q, hqmem, hqname⟩ := List.mem_map.mp hmm
          obtain ⟨hqgcb, hqsel⟩ := List.mem_filter.mp hqmem
          unfold get_channel_bookmakers at hqgcb
          obtain ⟨b, hbmem, hbq⟩ := List.mem_filterMap.mp hqgcb
          obtain ⟨hbdb, hbact⟩ := List.mem_filter.mp hbmem
          cases hf : db.channel_bookmakers.find?
              (fun r => r.channel_id == cid && r.bookmaker_id == b.id) with
          | none => rw [hf] at hbq; cases hbq
          | some r =>
            rw [hf] at hbq
            have hq : q = (b, r.is_selected) := by
              simpa using hbq.symm
            have hrmem := List.mem_of_find?_eq_some hf
            have hrpred := List.find?_some hf
            rw [Bool.and_eq_true] at hrpred
            obtain ⟨hr1, hr2⟩ := hrpred
            have hrc : r.channel_id = cid := by simpa using hr1
            have hrb : r.bookmaker_id = b.id := by simpa using hr2
            have hsel : r.is_selected = true := by
              rw [hq] at hqsel
              simpa using hqsel
            rcases hrows r hrmem hrc hsel with hid | hid
            · rw [hrb] at hid
              have hbe : b = A := huniq b hbdb A hA hid
              refine hnA ?_
              rw [← hqname, hq, hbe]
            · rw [hrb] at hid
              have hbe : b = B := huniq b hbdb B hB hid
              refine hnB ?_
              rw [← hqname, hq, hbe]
      simp only [channel_pref_blocks]
      rw [hie, hcon]
      rfl
    refine ⟨hblk, ?_⟩
    rw [msgs_avoid_iff]
    exact fanout_no_channel_of_blocked p now co uo db cid hblk

/-- C6 witness: the amended theorem applied to a user and a channel with no
preference rows, and to user 7 and channel -100 whose preference rows are
exactly the active bookmakers A and B while the prediction's bookmaker is C. -/
theorem c6_wildcard_and_pair_filter_witness :
    user_pref_blocks 7 "C" dbOneUser = false ∧
    channel_pref_blocks (-100) "C" dbOneUser = false ∧
    (user_pref_blocks 7 (pyStrip predC.bookmaker) dbPrefsAB = true ∧
      msgs_avoid (Recipient.user 7)
        (send_prediction_to_user_and_channel predC 200 oracleChanErr
          oracleUserOk dbPrefsAB).messages = true) ∧
    (channel_pref_blocks (-100) (pyStrip predC.bookmaker) dbPrefsAB = true ∧
      msgs_avoid (Recipient.channel (-100))
        (send_prediction_to_user_and_channel predC 200 oracleChanErr
          oracleUserOk dbPrefsAB).messages = true) := by
  refine ⟨c6_wildcard_and_pair_filter.1 dbOneUser 7 "C" (by decide),
    c6_wildcard_and_pair_filter.2.1 dbOneUser (-100) "C" (by decide),
    c6_wildcard_and_pair_filter.2.2.1 dbPrefsAB 7 ⟨1, "A", true⟩
      ⟨2, "B", true⟩ predC 200 oracleChanErr oracleUserOk (by decide)
      (by decide) rfl (by decide) (by decide) (by decide) (by decide)
      (by decide),
    c6_wildcard_and_pair_filter.2.2.2 dbPrefsAB (-100) ⟨1, "A", true⟩
      ⟨2, "B", true⟩ predC 200 oracleChanErr oracleUserOk (by decide)
      (by decide) rfl (by decide) (by decide) (by decide) (by decide)
      (by decide) (by decide)⟩

end AB5
